import Mathlib

/-!
Shallow embedding of src/speech_recognition_system.py.

Strings are modelled as lists of characters (Python str).  External
effects (the file system, the pydub MP3 decoder, the wave-module header
read, the speech_recognition audio open and the Google recognition call)
are modelled as oracles collected in an environment record; the pipeline
function consumes them in the order the Python code performs the calls.
-/

namespace SpeechRec

/-- Python strings, modelled as lists of characters. -/
abbrev Str := List Char

/-- Coerce a Lean string literal to the model's string type. -/
def str (s : String) : Str := s.data

/-- ASCII lower-casing of one character (Python str.lower on ASCII input). -/
def lowerChar (c : Char) : Char :=
  if 'A' ≤ c ∧ c ≤ 'Z' then Char.ofNat (c.toNat + 32) else c

/-- Python str.split with separator a single dot: src line 95,
file_name.split('.').  Always returns a non-empty list. -/
def splitOnDot : Str → List Str
  | [] => [[]]
  | c :: cs =>
    if c = '.' then [] :: splitOnDot cs
    else
      match splitOnDot cs with
      | [] => [[c]]
      | p :: ps => (c :: p) :: ps

/-- Python negative index [-1]: the last element of a split result. -/
def lastSeg (l : List Str) : Str := l.getLastD []

/-- src line 95: file_ext = file_name.split('.')[-1].lower() -/
def file_ext (file_name : Str) : Str :=
  (lastSeg (splitOnDot file_name)).map lowerChar

/-- Does the pattern string begin the given string (character-wise)? -/
def startsWith (pat s : Str) : Bool :=
  match pat, s with
  | pc :: pt, c :: ct => pc = c && startsWith pt ct
  | _ :: _, [] => false
  | [], _ => true

/-- Replace every non-overlapping occurrence of the pattern p :: ps,
scanning left to right (the semantics of Python str.replace for a
non-empty pattern).  The fuel argument only forces structural
termination; any fuel at least the length of the string gives the
replacement. -/
def replaceAllFuel (p : Char) (ps rep : Str) : Nat → Str → Str
  | _, [] => []
  | 0, s => s
  | fuel + 1, c :: cs =>
    if startsWith (p :: ps) (c :: cs) then
      rep ++ replaceAllFuel p ps rep fuel (cs.drop ps.length)
    else
      c :: replaceAllFuel p ps rep fuel cs

/-- Python str.replace(pat, rep) for a non-empty pattern (the only way
the source calls it, at src line 103). -/
def pyreplace (pat rep s : Str) : Str :=
  match pat with
  | [] => s
  | p :: ps => replaceAllFuel p ps rep s.length s

/-- src line 103: wav_file = file_name.replace(".mp3", ".wav") -/
def wav_target (file_name : Str) : Str :=
  pyreplace (str ".mp3") (str ".wav") file_name

/-- Outcome of the wave-module header read performed by
get_audio_duration: either the header yields a frame count and a frame
rate (src lines 30 and 31), or wave.open or the reads raise. -/
inductive WavRead
  | header (frames rate : Nat)
  | fail
deriving DecidableEq

/-- Round a rational to the nearest integer, ties to even (the rounding
of Python round). -/
def roundHalfEven (q : ℚ) : ℤ :=
  if Int.fract q < 1 / 2 then ⌊q⌋
  else if 1 / 2 < Int.fract q then ⌊q⌋ + 1
  else if ⌊q⌋ % 2 = 0 then ⌊q⌋ else ⌊q⌋ + 1

/-- Python round(x, 2): round to two decimal places. -/
def round2 (q : ℚ) : ℚ := (roundHalfEven (q * 100) : ℚ) / 100

/-- src lines 28 to 36: duration = round(frames / float(rate), 2) inside
try, returning 0 on any exception (an unreadable header, or the
ZeroDivisionError raised when rate is 0). -/
def get_audio_duration : WavRead → ℚ
  | .header frames rate =>
      if rate = 0 then 0 else round2 ((frames : ℚ) / (rate : ℚ))
  | .fail => 0

/-- Outcome of the recognize_google call at src line 54. -/
inductive ServiceOutcome
  | success (text : Str)
  | unknownValue
  | requestError (desc : Str)
deriving DecidableEq

/-- src lines 52 to 59: the try block around recognize_google. -/
def transcribe_audio : ServiceOutcome → Str
  | .success t => t
  | .unknownValue => str "Could not understand the audio."
  | .requestError e => str "Google API request failed: " ++ e

/-- One file written by the program: name, open mode, encoding, bytes. -/
structure FileWrite where
  name : Str
  mode : Str
  encoding : Str
  content : Str
deriving DecidableEq

/-- src line 73: the string "=" * 50. -/
def eqLine : Str := List.replicate 50 '='

/-- src lines 61 to 79: the seven sequential f.write calls of
save_transcription_report, on the file transcription_output.txt opened
with mode "w" and encoding "utf-8".  The duration and the timestamp
arrive already rendered as text (the f-string interpolations at src
lines 75 and 76). -/
def save_transcription_report
    (file_path duration_text processed_at transcription : Str) : FileWrite :=
  { name := str "transcription_output.txt"
    mode := str "w"
    encoding := str "utf-8"
    content :=
      str "TRANSCRIPTION REPORT\n" ++
      ((eqLine ++ str "\n") ++
      ((str "File Name     : " ++ file_path ++ str "\n") ++
      ((str "Duration      : " ++ duration_text ++ str " seconds\n") ++
      ((str "Processed At  : " ++ processed_at ++ str "\n\n") ++
      (str "Transcribed Text:\n" ++
      (transcription ++ str "\n")))))) }

/-- The external world as the pipeline observes it: each field is the
response of one external call, as a function of the path the program
passes to that call. -/
structure Env where
  isfile : Bool
  mp3DecodeOk : Bool
  wavRead : Str → WavRead
  audioOpenOk : Str → Bool
  service : Str → ServiceOutcome
  timestamp : Str
  floatRepr : ℚ → Str

/-- The four report fields (section 3 of the data model). -/
structure Report where
  filePath : Str
  duration : ℚ
  timestamp : Str
  transcription : Str
deriving DecidableEq

/-- How a run of main ends: an early return (missing file or
unsupported extension), an uncaught exception, or a written report. -/
inductive RunResult
  | earlyExit
  | fatal
  | report (r : Report) (fw : FileWrite)
deriving DecidableEq

/-- Observable outcome of one run: how it ended, the path written by the
MP3 export if that step ran, and whether recognize_google was called. -/
structure RunOutcome where
  result : RunResult
  wavWritten : Option Str
  networkCalled : Bool
deriving DecidableEq

/-- src lines 113 to 132: the pipeline from step 3 on, at the resolved
path file_path.  Duration is computed first (recovering to 0 on
failure); then transcribe_audio opens the file with sr.AudioFile outside
any try, so an open or record failure is an uncaught exception; on
success the service is consulted and the report is printed and saved. -/
def runFrom (file_path : Str) (env : Env) (wavWritten : Option Str) :
    RunOutcome :=
  let dur := get_audio_duration (env.wavRead file_path)
  if env.audioOpenOk file_path then
    let tx := transcribe_audio (env.service file_path)
    { result := .report ⟨file_path, dur, env.timestamp, tx⟩
        (save_transcription_report file_path (env.floatRepr dur)
          env.timestamp tx)
      wavWritten := wavWritten
      networkCalled := true }
  else
    { result := .fatal, wavWritten := wavWritten, networkCalled := false }

/-- src lines 81 to 132: main, applied to the stripped input path.
Early return if os.path.isfile is false; then dispatch on the extension
tag: mp3 converts (a fatal exception if the decoder raises, otherwise
the export writes wav_target file_name and that path flows on), wav
passes through, anything else returns early. -/
def main (file_name : Str) (env : Env) : RunOutcome :=
  if env.isfile = false then
    { result := .earlyExit, wavWritten := none, networkCalled := false }
  else if file_ext file_name = str "mp3" then
    if env.mp3DecodeOk then
      runFrom (wav_target file_name) env (some (wav_target file_name))
    else
      { result := .fatal, wavWritten := none, networkCalled := false }
  else if file_ext file_name = str "wav" then
    runFrom file_name env none
  else
    { result := .earlyExit, wavWritten := none, networkCalled := false }

/-- The path the pipeline uses downstream of the format dispatch. -/
def usedPath (file_name : Str) : Str :=
  if file_ext file_name = str "mp3" then wav_target file_name else file_name

/-- Does the pattern occur as a contiguous substring?  (Bounded scan,
so it is decidable by evaluation; meaningful for non-empty patterns.) -/
def occurs (pat s : Str) : Bool :=
  (List.range (s.length + 1)).any (fun i => startsWith pat (s.drop i))

/-- Replace only the first occurrence of the pattern p :: ps.  This is
not an operation of the source: it is the operation named by the claim
that the conversion target is obtained by replacing the first
occurrence of ".mp3", written out to be compared against wav_target. -/
def replaceFirst (p : Char) (ps rep : Str) : Str → Str
  | [] => []
  | c :: cs =>
    if startsWith (p :: ps) (c :: cs) then rep ++ cs.drop ps.length
    else c :: replaceFirst p ps rep cs

/-- The conversion-target path as the claim describes it: the first
occurrence of ".mp3" replaced by ".wav". -/
def claim_wav_target (file_name : Str) : Str :=
  replaceFirst '.' (str "mp3") (str ".wav") file_name

/-- A concrete environment for evaluating whole runs: the header read
fails (so the computed duration is 0), the recognizer open succeeds or
fails as given, and the service answers as given. -/
def mkEnv (svc : ServiceOutcome) (openOk : Bool) : Env :=
  { isfile := true
    mp3DecodeOk := true
    wavRead := fun _ => .fail
    audioOpenOk := fun _ => openOk
    service := fun _ => svc
    timestamp := str "2026-01-01 00:00:00"
    floatRepr := fun _ => str "0" }

/-- A concrete environment whose path does not name an existing file. -/
def mkEnvMissing : Env :=
  { mkEnv (.success (str "hello world")) true with isfile := false }

/-- The report produced by a concrete successful run of main on
sample.wav under mkEnv (.success "hello world") true. -/
def rWit : Report :=
  ⟨str "sample.wav", 0, str "2026-01-01 00:00:00", str "hello world"⟩

/-- The file written by that same concrete run. -/
def fwWit : FileWrite :=
  save_transcription_report (str "sample.wav") (str "0")
    (str "2026-01-01 00:00:00") (str "hello world")

/-! ### Lemmas about the string operations -/

theorem startsWith_self : ∀ l : Str, startsWith l l = true
  | [] => rfl
  | c :: cs => by simp [startsWith, startsWith_self cs]

theorem replaceAllFuel_nil (p : Char) (ps rep : Str) (fuel : Nat) :
    replaceAllFuel p ps rep fuel [] = [] := by
  cases fuel <;> rfl

theorem replaceAllFuel_noOccur (p : Char) (ps rep : Str) :
    ∀ (fuel : Nat) (s : Str), s.length ≤ fuel →
      (∀ i, startsWith (p :: ps) (s.drop i) = false) →
      replaceAllFuel p ps rep fuel s = s := by
  intro fuel
  induction fuel with
  | zero =>
    intro s hlen _
    have hs : s = [] := List.length_eq_zero.mp (Nat.le_zero.mp hlen)
    rw [hs]; exact replaceAllFuel_nil ..
  | succ n ih =>
    intro s hlen hocc
    cases s with
    | nil => exact replaceAllFuel_nil ..
    | cons c cs =>
      have h0 := hocc 0
      rw [List.drop_zero] at h0
      have hrec := ih cs (by simpa using Nat.le_of_succ_le_succ hlen)
        (fun i => by simpa using hocc (i + 1))
      simp [replaceAllFuel, h0, hrec]

theorem replaceAllFuel_suffix (p : Char) (ps rep : Str) :
    ∀ (fuel : Nat) (stem : Str),
      stem.length + ps.length + 1 ≤ fuel →
      (∀ i, i < stem.length →
        startsWith (p :: ps) ((stem ++ p :: ps).drop i) = false) →
      replaceAllFuel p ps rep fuel (stem ++ p :: ps) = stem ++ rep := by
  intro fuel
  induction fuel with
  | zero => intro stem hlen _; omega
  | succ n ih =>
    intro stem hlen hocc
    cases stem with
    | nil =>
      rw [List.nil_append, List.nil_append]
      simp only [replaceAllFuel, startsWith_self, if_true]
      rw [List.drop_length, replaceAllFuel_nil, List.append_nil]
    | cons c stem' =>
      have h0 := hocc 0 (by simp)
      rw [List.drop_zero, List.cons_append] at h0
      have hrec := ih stem' (by simp at hlen ⊢; omega)
        (fun i hi => by
          have := hocc (i + 1) (by simp; omega)
          simpa [List.cons_append] using this)
      rw [List.cons_append]
      simp [replaceAllFuel, h0, hrec]

theorem occurs_false_startsWith (p : Char) (ps s : Str)
    (h : occurs (p :: ps) s = false) :
    ∀ i, startsWith (p :: ps) (s.drop i) = false := by
  intro i
  by_cases hi : i ≤ s.length
  · have := List.any_eq_false.mp h i (List.mem_range.mpr (by omega))
    simpa using this
  · have hd : s.drop i = [] := List.drop_eq_nil_of_le (by omega)
    rw [hd]; rfl

theorem str_mp3_cons : str ".mp3" = '.' :: str "mp3" := rfl

theorem wav_target_eq (s : Str) :
    wav_target s = replaceAllFuel '.' (str "mp3") (str ".wav") s.length s := rfl

theorem wav_target_noOccur (s : Str) (h : occurs (str ".mp3") s = false) :
    wav_target s = s := by
  rw [wav_target_eq]
  exact replaceAllFuel_noOccur _ _ _ _ s le_rfl
    (occurs_false_startsWith _ _ s (by rw [← str_mp3_cons]; exact h))

theorem wav_target_suffix (stem : Str)
    (h : ∀ i, i < stem.length →
      startsWith (str ".mp3") ((stem ++ str ".mp3").drop i) = false) :
    wav_target (stem ++ str ".mp3") = stem ++ str ".wav" := by
  rw [wav_target_eq, str_mp3_cons]
  refine replaceAllFuel_suffix _ _ _ _ stem (by simp [str]) ?_
  intro i hi
  have := h i hi
  rwa [str_mp3_cons] at this

theorem splitOnDot_ne_nil : ∀ s : Str, splitOnDot s ≠ [] := by
  intro s
  cases s with
  | nil => simp [splitOnDot]
  | cons c cs =>
    simp only [splitOnDot]
    by_cases hc : c = '.'
    · simp [hc]
    · simp only [hc, if_false]
      cases h : splitOnDot cs <;> simp

theorem splitOnDot_no_dot : ∀ s : Str, '.' ∉ s → splitOnDot s = [s] := by
  intro s
  induction s with
  | nil => intro _; rfl
  | cons c cs ih =>
    intro h
    have hc : ¬c = '.' := fun hcc => h (hcc ▸ List.mem_cons_self c cs)
    have hcs : '.' ∉ cs := fun hm => h (List.mem_cons_of_mem _ hm)
    simp only [splitOnDot, hc, if_false, ih hcs]

theorem splitOnDot_dot_cons (t : Str) :
    splitOnDot ('.' :: t) = [] :: splitOnDot t := by
  simp [splitOnDot]

theorem lastSeg_append_dot : ∀ s t : Str,
    lastSeg (splitOnDot (s ++ '.' :: t)) = lastSeg (splitOnDot t) ∧
      2 ≤ (splitOnDot (s ++ '.' :: t)).length := by
  intro s t
  induction s with
  | nil =>
    rw [List.nil_append, splitOnDot_dot_cons]
    constructor
    · simp only [lastSeg, List.getLastD_cons]
    · have := List.length_pos.mpr (splitOnDot_ne_nil t)
      simp; omega
  | cons c s' ih =>
    rw [List.cons_append]
    by_cases hc : c = '.'
    · rw [hc, splitOnDot_dot_cons]
      refine ⟨?_, by simp; omega⟩
      simp only [lastSeg, List.getLastD_cons] at ih ⊢
      exact ih.1
    · simp only [splitOnDot, hc, if_false]
      cases h : splitOnDot (s' ++ '.' :: t) with
      | nil => exact absurd h (splitOnDot_ne_nil _)
      | cons p ps =>
        rw [h] at ih
        cases ps with
        | nil => simp at ih
        | cons q ps' =>
          refine ⟨?_, by simp⟩
          simp only [lastSeg, List.getLastD_cons] at ih ⊢
          exact ih.1

theorem file_ext_no_dot (s : Str) (h : '.' ∉ s) :
    file_ext s = s.map lowerChar := by
  rw [file_ext, splitOnDot_no_dot s h]
  simp [lastSeg]

theorem file_ext_append (s t : Str) (h : '.' ∉ t) :
    file_ext (s ++ '.' :: t) = t.map lowerChar := by
  rw [file_ext, (lastSeg_append_dot s t).1, splitOnDot_no_dot t h]
  simp [lastSeg]

theorem file_ext_mp3_suffix (stem : Str) :
    file_ext (stem ++ str ".mp3") = str "mp3" := by
  rw [str_mp3_cons, file_ext_append stem (str "mp3") (by decide)]
  decide

/-! ### Lemmas about rounding -/

theorem roundHalfEven_nonneg (q : ℚ) (h : 0 ≤ q) : 0 ≤ roundHalfEven q := by
  have h0 : 0 ≤ ⌊q⌋ := Int.floor_nonneg.mpr h
  unfold roundHalfEven
  split_ifs <;> omega

theorem abs_roundHalfEven_sub (q : ℚ) :
    |(roundHalfEven q : ℚ) - q| ≤ 1 / 2 := by
  have hf : ((⌊q⌋ : ℤ) : ℚ) = q - Int.fract q := by
    have := Int.self_sub_floor q
    linarith
  have h0 : 0 ≤ Int.fract q := Int.fract_nonneg q
  have h1 : Int.fract q < 1 := Int.fract_lt_one q
  unfold roundHalfEven
  split_ifs with ha hb hc
  · have he : ((⌊q⌋ : ℤ) : ℚ) - q = -Int.fract q := by rw [hf]; ring
    rw [he, abs_neg, abs_of_nonneg h0]; linarith
  · have he : (((⌊q⌋ + 1 : ℤ)) : ℚ) - q = 1 - Int.fract q := by
      push_cast; rw [hf]; ring
    rw [he, abs_of_nonneg (by linarith)]; linarith
  · have hh : Int.fract q = 1 / 2 := le_antisymm (not_lt.mp hb) (not_lt.mp ha)
    have he : ((⌊q⌋ : ℤ) : ℚ) - q = -(1 / 2) := by rw [hf, hh]; ring
    rw [he, abs_neg, abs_of_nonneg (by norm_num)]
  · have hh : Int.fract q = 1 / 2 := le_antisymm (not_lt.mp hb) (not_lt.mp ha)
    have he : (((⌊q⌋ + 1 : ℤ)) : ℚ) - q = 1 / 2 := by
      push_cast; rw [hf, hh]; ring
    rw [he, abs_of_nonneg (by norm_num)]

theorem round2_close (q : ℚ) :
    ∃ z : ℤ, round2 q = (z : ℚ) / 100 ∧ |(z : ℚ) / 100 - q| ≤ 1 / 200 := by
  refine ⟨roundHalfEven (q * 100), rfl, ?_⟩
  have h := abs_roundHalfEven_sub (q * 100)
  have he : (roundHalfEven (q * 100) : ℚ) / 100 - q =
      ((roundHalfEven (q * 100) : ℚ) - q * 100) / 100 := by ring
  rw [he, abs_div, abs_of_pos (by norm_num : (0 : ℚ) < 100)]
  linarith

theorem round2_nonneg (q : ℚ) (h : 0 ≤ q) : 0 ≤ round2 q :=
  div_nonneg
    (Int.cast_nonneg.mpr (roundHalfEven_nonneg _ (by positivity)))
    (by norm_num)

/-! ### Lemmas unfolding the pipeline -/

theorem main_not_isfile (fn : Str) (env : Env) (h : env.isfile = false) :
    main fn env = ⟨.earlyExit, none, false⟩ := by
  simp [main, h]

theorem main_bad_ext (fn : Str) (env : Env) (h1 : env.isfile = true)
    (h2 : file_ext fn ≠ str "mp3") (h3 : file_ext fn ≠ str "wav") :
    main fn env = ⟨.earlyExit, none, false⟩ := by
  simp [main, h1, h2, h3]

theorem main_mp3 (fn : Str) (env : Env) (h1 : env.isfile = true)
    (h2 : file_ext fn = str "mp3") (h3 : env.mp3DecodeOk = true) :
    main fn env = runFrom (wav_target fn) env (some (wav_target fn)) := by
  simp [main, h1, h2, h3]

theorem main_mp3_decode_fail (fn : Str) (env : Env) (h1 : env.isfile = true)
    (h2 : file_ext fn = str "mp3") (h3 : env.mp3DecodeOk = false) :
    main fn env = ⟨.fatal, none, false⟩ := by
  simp [main, h1, h2, h3]

theorem main_wav (fn : Str) (env : Env) (h1 : env.isfile = true)
    (h2 : file_ext fn = str "wav") :
    main fn env = runFrom fn env none := by
  have h3 : file_ext fn ≠ str "mp3" := by rw [h2]; decide
  simp [main, h1, h2, h3, show (str "wav" : Str) ≠ str "mp3" by decide]

theorem runFrom_open (p : Str) (env : Env) (w : Option Str)
    (h : env.audioOpenOk p = true) :
    runFrom p env w =
      { result := .report
          ⟨p, get_audio_duration (env.wavRead p), env.timestamp,
            transcribe_audio (env.service p)⟩
          (save_transcription_report p
            (env.floatRepr (get_audio_duration (env.wavRead p)))
            env.timestamp (transcribe_audio (env.service p)))
        wavWritten := w
        networkCalled := true } := by
  simp [runFrom, h]

theorem runFrom_no_open (p : Str) (env : Env) (w : Option Str)
    (h : env.audioOpenOk p = false) :
    runFrom p env w = ⟨.fatal, w, false⟩ := by
  simp [runFrom, h]

/-- Whenever a run ends in a report, the file written is exactly the one
save_transcription_report builds from the report's own fields, and the
report's timestamp is the environment's. -/
theorem report_shape (fn : Str) (env : Env) (r : Report) (fw : FileWrite)
    (h : (main fn env).result = RunResult.report r fw) :
    fw = save_transcription_report r.filePath (env.floatRepr r.duration)
        r.timestamp r.transcription ∧
      r.timestamp = env.timestamp := by
  cases hf : env.isfile with
  | false => rw [main_not_isfile fn env hf] at h; simp at h
  | true =>
    by_cases h2 : file_ext fn = str "mp3"
    · cases hd : env.mp3DecodeOk with
      | false => rw [main_mp3_decode_fail fn env hf h2 hd] at h; simp at h
      | true =>
        rw [main_mp3 fn env hf h2 hd] at h
        cases ho : env.audioOpenOk (wav_target fn) with
        | false => rw [runFrom_no_open _ env _ ho] at h; simp at h
        | true =>
          rw [runFrom_open _ env _ ho] at h
          injection h with hr hfw
          subst hr; subst hfw
          exact ⟨rfl, rfl⟩
    · by_cases h3 : file_ext fn = str "wav"
      · rw [main_wav fn env hf h3] at h
        cases ho : env.audioOpenOk fn with
        | false => rw [runFrom_no_open _ env _ ho] at h; simp at h
        | true =>
          rw [runFrom_open _ env _ ho] at h
          injection h with hr hfw
          subst hr; subst hfw
          exact ⟨rfl, rfl⟩
      · rw [main_bad_ext fn env hf h2 h3] at h; simp at h

/-- The seven sequential writes concatenate to the literal layout of the
specification: the title line, a line of 50 equals-sign characters, the
three labelled fields, a blank line, the Transcribed Text heading, and
the transcription with exactly one newline appended. -/
theorem save_content_layout (a b c d : Str) :
    (save_transcription_report a b c d).content =
      str "TRANSCRIPTION REPORT\n" ++ (List.replicate 50 '=' ++
        (str "\nFile Name     : " ++ (a ++ (str "\nDuration      : " ++
          (b ++ (str " seconds\nProcessed At  : " ++ (c ++
            (str "\n\nTranscribed Text:\n" ++ (d ++ str "\n"))))))))) := by
  have e1 : (str "\nFile Name     : " : Str) =
      str "\n" ++ str "File Name     : " := by decide
  have e2 : (str "\nDuration      : " : Str) =
      str "\n" ++ str "Duration      : " := by decide
  have e3 : (str " seconds\nProcessed At  : " : Str) =
      str " seconds\n" ++ str "Processed At  : " := by decide
  have e4 : (str "\n\nTranscribed Text:\n" : Str) =
      str "\n\n" ++ str "Transcribed Text:\n" := by decide
  rw [e1, e2, e3, e4]
  simp only [save_transcription_report, eqLine, List.append_assoc]

/-! ### The claims -/

/-- Claim C1, as stated, is false on the code: on a WAV input whose
header is unreadable the duration is recovered to 0, but
transcribe_audio then opens the same file with sr.AudioFile outside any
try block, so when that open also fails (as it does for a corrupted
file) the run aborts with an uncaught exception and no report is
written.  Concrete refutation: an existing bad.wav whose header read
fails and whose recognizer open fails ends the run fatally with no
report. -/
theorem claim_c1_counterexample :
    (mkEnv .unknownValue false).wavRead (str "bad.wav") = WavRead.fail ∧
    get_audio_duration ((mkEnv .unknownValue false).wavRead (str "bad.wav")) = 0 ∧
    (main (str "bad.wav") (mkEnv .unknownValue false)).result = RunResult.fatal := by
  exact ⟨rfl, rfl, by decide⟩

/-- Claim C1 (amended): for a WAV input whose header read fails, the
computed duration is exactly 0 and control continues into the
transcription step; a report is then written (with duration 0) exactly
when the recognizer's own unguarded file open succeeds, and the run
aborts without a report when it fails. -/
theorem claim_c1 (fn : Str) (env : Env)
    (h1 : env.isfile = true) (h2 : file_ext fn = str "wav")
    (h3 : env.wavRead fn = WavRead.fail) :
    get_audio_duration (env.wavRead fn) = 0 ∧
    (env.audioOpenOk fn = true →
      ∃ r fw, (main fn env).result = RunResult.report r fw ∧ r.duration = 0) ∧
    (env.audioOpenOk fn = false → (main fn env).result = RunResult.fatal) := by
  refine ⟨by rw [h3]; rfl, ?_, ?_⟩
  · intro ho
    rw [main_wav fn env h1 h2, runFrom_open fn env none ho]
    exact ⟨_, _, rfl, by rw [h3]; rfl⟩
  · intro ho
    rw [main_wav fn env h1 h2, runFrom_no_open fn env none ho]

theorem claim_c1_witness :
    ((mkEnv .unknownValue true).isfile = true ∧
      file_ext (str "bad.wav") = str "wav" ∧
      (mkEnv .unknownValue true).wavRead (str "bad.wav") = WavRead.fail) ∧
    (get_audio_duration ((mkEnv .unknownValue true).wavRead (str "bad.wav")) = 0 ∧
      ((mkEnv .unknownValue true).audioOpenOk (str "bad.wav") = true →
        ∃ r fw, (main (str "bad.wav") (mkEnv .unknownValue true)).result =
            RunResult.report r fw ∧ r.duration = 0) ∧
      ((mkEnv .unknownValue true).audioOpenOk (str "bad.wav") = false →
        (main (str "bad.wav") (mkEnv .unknownValue true)).result = RunResult.fatal)) :=
  ⟨⟨rfl, by decide, rfl⟩,
    claim_c1 (str "bad.wav") (mkEnv .unknownValue true) rfl (by decide) rfl⟩

/-- Claim C2: whenever the run reaches the recognition call, an
unresolvable hypothesis yields exactly the sentinel text and a service
error with description d yields exactly the prefixed message, and in
both cases the run still ends in a written report carrying that text in
the transcribed-text field. -/
theorem claim_c2 (fn : Str) (env : Env)
    (hnet : (main fn env).networkCalled = true) :
    (env.service (usedPath fn) = ServiceOutcome.unknownValue →
      ∃ r fw, (main fn env).result = RunResult.report r fw ∧
        r.transcription = str "Could not understand the audio.") ∧
    (∀ d, env.service (usedPath fn) = ServiceOutcome.requestError d →
      ∃ r fw, (main fn env).result = RunResult.report r fw ∧
        r.transcription = str "Google API request failed: " ++ d) := by
  cases hf : env.isfile with
  | false => rw [main_not_isfile fn env hf] at hnet; simp at hnet
  | true =>
    by_cases h2 : file_ext fn = str "mp3"
    · have hu : usedPath fn = wav_target fn := by simp [usedPath, h2]
      cases hd : env.mp3DecodeOk with
      | false => rw [main_mp3_decode_fail fn env hf h2 hd] at hnet; simp at hnet
      | true =>
        rw [main_mp3 fn env hf h2 hd] at hnet ⊢
        cases ho : env.audioOpenOk (wav_target fn) with
        | false => rw [runFrom_no_open _ env _ ho] at hnet; simp at hnet
        | true =>
          rw [runFrom_open _ env _ ho, hu]
          exact ⟨fun hs => ⟨_, _, rfl, by rw [hs]; rfl⟩,
            fun d hs => ⟨_, _, rfl, by rw [hs]; rfl⟩⟩
    · by_cases h3 : file_ext fn = str "wav"
      · have hu : usedPath fn = fn := by simp [usedPath, h2]
        rw [main_wav fn env hf h3] at hnet ⊢
        cases ho : env.audioOpenOk fn with
        | false => rw [runFrom_no_open _ env _ ho] at hnet; simp at hnet
        | true =>
          rw [runFrom_open _ env _ ho, hu]
          exact ⟨fun hs => ⟨_, _, rfl, by rw [hs]; rfl⟩,
            fun d hs => ⟨_, _, rfl, by rw [hs]; rfl⟩⟩
      · rw [main_bad_ext fn env hf h2 h3] at hnet; simp at hnet

theorem claim_c2_witness :
    (main (str "clip.wav") (mkEnv .unknownValue true)).networkCalled = true ∧
    (((mkEnv .unknownValue true).service (usedPath (str "clip.wav")) =
        ServiceOutcome.unknownValue →
      ∃ r fw, (main (str "clip.wav") (mkEnv .unknownValue true)).result =
          RunResult.report r fw ∧
        r.transcription = str "Could not understand the audio.") ∧
    (∀ d, (mkEnv .unknownValue true).service (usedPath (str "clip.wav")) =
        ServiceOutcome.requestError d →
      ∃ r fw, (main (str "clip.wav") (mkEnv .unknownValue true)).result =
          RunResult.report r fw ∧
        r.transcription = str "Google API request failed: " ++ d)) :=
  ⟨by decide, claim_c2 (str "clip.wav") (mkEnv .unknownValue true) (by decide)⟩

/-- Claim C3: for a readable header with a non-zero rate, the duration
is a whole number of hundredths and lies within 1/200 of frames/rate,
and it is frames/rate rounded to two decimal places. -/
theorem claim_c3 (frames rate : Nat) (h : rate ≠ 0) :
    ∃ z : ℤ, get_audio_duration (WavRead.header frames rate) = (z : ℚ) / 100 ∧
      |(z : ℚ) / 100 - (frames : ℚ) / (rate : ℚ)| ≤ 1 / 200 ∧
      get_audio_duration (WavRead.header frames rate) =
        round2 ((frames : ℚ) / (rate : ℚ)) := by
  have hd : get_audio_duration (WavRead.header frames rate) =
      round2 ((frames : ℚ) / (rate : ℚ)) := by
    simp [get_audio_duration, h]
  obtain ⟨z, hz1, hz2⟩ := round2_close ((frames : ℚ) / (rate : ℚ))
  exact ⟨z, by rw [hd, hz1], hz2, hd⟩

theorem claim_c3_witness :
    (16000 : Nat) ≠ 0 ∧
    ∃ z : ℤ, get_audio_duration (WavRead.header 32000 16000) = (z : ℚ) / 100 ∧
      |(z : ℚ) / 100 - ((32000 : Nat) : ℚ) / ((16000 : Nat) : ℚ)| ≤ 1 / 200 ∧
      get_audio_duration (WavRead.header 32000 16000) =
        round2 (((32000 : Nat) : ℚ) / ((16000 : Nat) : ℚ)) :=
  ⟨by decide, claim_c3 32000 16000 (by decide)⟩

/-- Claim C4, as stated, is false on the code: for the input x.MP3 the
extension tag is mp3 (lower-cased), yet file_name.replace(".mp3",
".wav") is case-sensitive and finds no occurrence, so the conversion
target is x.MP3 itself, not the sibling x.wav the claim promises. -/
theorem claim_c4_counterexample :
    file_ext (str "x.MP3") = str "mp3" ∧
    wav_target (str "x.MP3") = str "x.MP3" ∧
    (main (str "x.MP3") (mkEnv .unknownValue true)).wavWritten =
      some (str "x.MP3") ∧
    str "x.MP3" ≠ str "x.wav" := by
  exact ⟨by decide, by decide, by decide, by decide⟩

/-- Claim C4 (amended): for an input path that ends in the lower-case
suffix .mp3 and contains ".mp3" nowhere before that suffix, the
converter writes the sibling path with the suffix swapped to .wav,
and every downstream step (duration, transcription, the report's File
Name field) uses that new path. -/
theorem claim_c4 (stem : Str) (env : Env)
    (h1 : env.isfile = true) (h2 : env.mp3DecodeOk = true)
    (hocc : ∀ i, i < stem.length →
      startsWith (str ".mp3") ((stem ++ str ".mp3").drop i) = false) :
    wav_target (stem ++ str ".mp3") = stem ++ str ".wav" ∧
    (main (stem ++ str ".mp3") env).wavWritten = some (stem ++ str ".wav") ∧
    (env.audioOpenOk (stem ++ str ".wav") = true →
      ∃ r fw, (main (stem ++ str ".mp3") env).result = RunResult.report r fw ∧
        r.filePath = stem ++ str ".wav" ∧
        r.duration = get_audio_duration (env.wavRead (stem ++ str ".wav")) ∧
        r.transcription = transcribe_audio (env.service (stem ++ str ".wav"))) := by
  have hw : wav_target (stem ++ str ".mp3") = stem ++ str ".wav" :=
    wav_target_suffix stem hocc
  have hm := main_mp3 (stem ++ str ".mp3") env h1 (file_ext_mp3_suffix stem) h2
  refine ⟨hw, ?_, ?_⟩
  · rw [hm, hw]
    cases ho : env.audioOpenOk (stem ++ str ".wav") with
    | true => rw [runFrom_open _ env _ ho]
    | false => rw [runFrom_no_open _ env _ ho]
  · intro ho
    rw [hm, hw, runFrom_open _ env _ ho]
    exact ⟨_, _, rfl, rfl, rfl, rfl⟩

theorem claim_c4_witness :
    ((mkEnv .unknownValue true).isfile = true ∧
      (mkEnv .unknownValue true).mp3DecodeOk = true ∧
      (∀ i, i < (str "song").length →
        startsWith (str ".mp3") ((str "song" ++ str ".mp3").drop i) = false)) ∧
    (wav_target (str "song" ++ str ".mp3") = str "song" ++ str ".wav" ∧
      (main (str "song" ++ str ".mp3") (mkEnv .unknownValue true)).wavWritten =
        some (str "song" ++ str ".wav") ∧
      ((mkEnv .unknownValue true).audioOpenOk (str "song" ++ str ".wav") = true →
        ∃ r fw, (main (str "song" ++ str ".mp3") (mkEnv .unknownValue true)).result =
            RunResult.report r fw ∧
          r.filePath = str "song" ++ str ".wav" ∧
          r.duration = get_audio_duration
            ((mkEnv .unknownValue true).wavRead (str "song" ++ str ".wav")) ∧
          r.transcription = transcribe_audio
            ((mkEnv .unknownValue true).service (str "song" ++ str ".wav")))) :=
  ⟨⟨rfl, rfl, by decide⟩,
    claim_c4 (str "song") (mkEnv .unknownValue true) rfl rfl (by decide)⟩

/-- Claim C5: a missing input file, or an existing one whose tag is
neither wav nor mp3, ends the run immediately with no report, no
intermediate WAV file and no network call. -/
theorem claim_c5 (fn : Str) (env : Env) :
    (env.isfile = false →
      main fn env = ⟨RunResult.earlyExit, none, false⟩) ∧
    (env.isfile = true → file_ext fn ≠ str "mp3" → file_ext fn ≠ str "wav" →
      main fn env = ⟨RunResult.earlyExit, none, false⟩) :=
  ⟨main_not_isfile fn env, main_bad_ext fn env⟩

theorem claim_c5_witness :
    ((mkEnv (.success (str "hello world")) true).isfile = true ∧
      file_ext (str "a.flac") ≠ str "mp3" ∧
      file_ext (str "a.flac") ≠ str "wav" ∧
      mkEnvMissing.isfile = false) ∧
    main (str "a.flac") (mkEnv (.success (str "hello world")) true) =
      ⟨RunResult.earlyExit, none, false⟩ ∧
    main (str "missing.wav") mkEnvMissing =
      ⟨RunResult.earlyExit, none, false⟩ :=
  ⟨⟨rfl, by decide, by decide, rfl⟩,
    (claim_c5 (str "a.flac") (mkEnv (.success (str "hello world")) true)).2
      rfl (by decide) (by decide),
    (claim_c5 (str "missing.wav") mkEnvMissing).1 rfl⟩

/-- Claim C6: every completed run writes the report to the fixed file
name transcription_output.txt, opened with mode w (overwrite) and UTF-8
encoding, and its content is exactly the literal layout of the
specification with the transcription followed by exactly one appended
newline. -/
theorem claim_c6 (fn : Str) (env : Env) (r : Report) (fw : FileWrite)
    (h : (main fn env).result = RunResult.report r fw) :
    fw.name = str "transcription_output.txt" ∧
    fw.mode = str "w" ∧
    fw.encoding = str "utf-8" ∧
    fw.content =
      str "TRANSCRIPTION REPORT\n" ++ (List.replicate 50 '=' ++
        (str "\nFile Name     : " ++ (r.filePath ++ (str "\nDuration      : " ++
          (env.floatRepr r.duration ++ (str " seconds\nProcessed At  : " ++
            (r.timestamp ++ (str "\n\nTranscribed Text:\n" ++
              (r.transcription ++ str "\n"))))))))) := by
  obtain ⟨hfw, -⟩ := report_shape fn env r fw h
  subst hfw
  exact ⟨rfl, rfl, rfl, save_content_layout ..⟩

set_option maxRecDepth 40000 in
theorem claim_c6_witness :
    (main (str "sample.wav") (mkEnv (.success (str "hello world")) true)).result =
      RunResult.report rWit fwWit ∧
    (fwWit.name = str "transcription_output.txt" ∧
      fwWit.mode = str "w" ∧
      fwWit.encoding = str "utf-8" ∧
      fwWit.content =
        str "TRANSCRIPTION REPORT\n" ++ (List.replicate 50 '=' ++
          (str "\nFile Name     : " ++ (rWit.filePath ++ (str "\nDuration      : " ++
            ((mkEnv (.success (str "hello world")) true).floatRepr rWit.duration ++
            (str " seconds\nProcessed At  : " ++ (rWit.timestamp ++
              (str "\n\nTranscribed Text:\n" ++
                (rWit.transcription ++ str "\n")))))))))) :=
  ⟨by decide,
    claim_c6 (str "sample.wav") (mkEnv (.success (str "hello world")) true)
      rWit fwWit (by decide)⟩

/-- Claim C7: for an existing input tagged wav the normalizer returns
the path unchanged and writes nothing, and duration, transcription and
the report's File Name field all use that same path. -/
theorem claim_c7 (fn : Str) (env : Env)
    (h1 : env.isfile = true) (h2 : file_ext fn = str "wav") :
    (main fn env).wavWritten = none ∧
    (env.audioOpenOk fn = true →
      ∃ r fw, (main fn env).result = RunResult.report r fw ∧
        r.filePath = fn ∧
        r.duration = get_audio_duration (env.wavRead fn) ∧
        r.transcription = transcribe_audio (env.service fn)) := by
  have hm := main_wav fn env h1 h2
  constructor
  · rw [hm]
    cases ho : env.audioOpenOk fn with
    | true => rw [runFrom_open _ env _ ho]
    | false => rw [runFrom_no_open _ env _ ho]
  · intro ho
    rw [hm, runFrom_open _ env _ ho]
    exact ⟨_, _, rfl, rfl, rfl, rfl⟩

theorem claim_c7_witness :
    ((mkEnv (.success (str "hello world")) true).isfile = true ∧
      file_ext (str "sample.wav") = str "wav") ∧
    ((main (str "sample.wav") (mkEnv (.success (str "hello world")) true)).wavWritten = none ∧
      ((mkEnv (.success (str "hello world")) true).audioOpenOk (str "sample.wav") = true →
        ∃ r fw, (main (str "sample.wav") (mkEnv (.success (str "hello world")) true)).result =
            RunResult.report r fw ∧
          r.filePath = str "sample.wav" ∧
          r.duration = get_audio_duration
            ((mkEnv (.success (str "hello world")) true).wavRead (str "sample.wav")) ∧
          r.transcription = transcribe_audio
            ((mkEnv (.success (str "hello world")) true).service (str "sample.wav")))) :=
  ⟨⟨rfl, by decide⟩,
    claim_c7 (str "sample.wav") (mkEnv (.success (str "hello world")) true)
      rfl (by decide)⟩

/-- Claim C8: get_audio_duration is a total function, never negative,
returning exactly 0 when the header read fails and exactly 0 when the
sample rate is 0 (the division error is caught). -/
theorem claim_c8 :
    (∀ w : WavRead, 0 ≤ get_audio_duration w) ∧
    get_audio_duration WavRead.fail = 0 ∧
    (∀ frames : Nat, get_audio_duration (WavRead.header frames 0) = 0) := by
  refine ⟨?_, rfl, fun frames => rfl⟩
  intro w
  cases w with
  | fail => exact le_refl 0
  | header frames rate =>
    by_cases h : rate = 0
    · simp [get_audio_duration, h]
    · simp only [get_audio_duration, h, if_false]
      exact round2_nonneg _ (div_nonneg (Nat.cast_nonneg _) (Nat.cast_nonneg _))

/-- Claim C9: the tag is the text after the last dot of the whole
input, lower-cased; with no dot the whole lower-cased path is the tag
(so a file literally named mp3 or wav is treated as that format), and
a.b.wav is tagged by its final segment only. -/
theorem claim_c9 :
    (∀ s : Str, '.' ∉ s → file_ext s = s.map lowerChar) ∧
    (∀ s t : Str, '.' ∉ t → file_ext (s ++ '.' :: t) = t.map lowerChar) ∧
    file_ext (str "a.b.wav") = str "wav" ∧
    file_ext (str "mp3") = str "mp3" ∧
    file_ext (str "wav") = str "wav" :=
  ⟨file_ext_no_dot, file_ext_append, by decide, by decide, by decide⟩

theorem claim_c9_witness :
    ('.' ∉ str "mp3") ∧
    file_ext (str "mp3") = (str "mp3").map lowerChar ∧
    ('.' ∉ str "WAV") ∧
    file_ext (str "a.b" ++ '.' :: str "WAV") = (str "WAV").map lowerChar :=
  ⟨by decide, claim_c9.1 (str "mp3") (by decide), by decide,
    claim_c9.2.1 (str "a.b") (str "WAV") (by decide)⟩

/-- Claim C10, as stated, is false on the code in one respect: Python
str.replace substitutes every non-overlapping occurrence of ".mp3",
not only the first one.  On a.mp3.mp3 the code produces a.wav.wav while
the claimed first-occurrence replacement produces a.wav.mp3. -/
theorem claim_c10_counterexample :
    wav_target (str "a.mp3.mp3") = str "a.wav.wav" ∧
    claim_wav_target (str "a.mp3.mp3") = str "a.wav.mp3" ∧
    wav_target (str "a.mp3.mp3") ≠ claim_wav_target (str "a.mp3.mp3") := by
  exact ⟨by decide, by decide, by decide⟩

/-- Claim C10 (amended): the conversion target replaces every
case-sensitive occurrence of ".mp3"; consequently for an input with no
such occurrence whose tag is still mp3 (an upper-case .MP3 extension)
the target equals the input path itself, so the export overwrites the
original file. -/
theorem claim_c10 (fn : Str) (env : Env)
    (h0 : occurs (str ".mp3") fn = false)
    (h1 : env.isfile = true) (h2 : file_ext fn = str "mp3")
    (h3 : env.mp3DecodeOk = true) :
    wav_target fn = fn ∧ (main fn env).wavWritten = some fn := by
  have hw := wav_target_noOccur fn h0
  refine ⟨hw, ?_⟩
  rw [main_mp3 fn env h1 h2 h3, hw]
  cases ho : env.audioOpenOk fn with
  | true => rw [runFrom_open _ env _ ho]
  | false => rw [runFrom_no_open _ env _ ho]

theorem claim_c10_witness :
    (occurs (str ".mp3") (str "x.MP3") = false ∧
      (mkEnv .unknownValue true).isfile = true ∧
      file_ext (str "x.MP3") = str "mp3" ∧
      (mkEnv .unknownValue true).mp3DecodeOk = true) ∧
    (wav_target (str "x.MP3") = str "x.MP3" ∧
      (main (str "x.MP3") (mkEnv .unknownValue true)).wavWritten =
        some (str "x.MP3")) :=
  ⟨⟨by decide, rfl, by decide, rfl⟩,
    claim_c10 (str "x.MP3") (mkEnv .unknownValue true) (by decide) rfl
      (by decide) rfl⟩

end SpeechRec
